import Mathlib

/-!
# Verification of jp-prev-bizday

A shallow embedding of the Go program jp-prev-bizday (src/main.go), which
computes the most recent Japanese business day strictly before a given base
date, together with proofs about it.

Dates are modelled as integers: the number of days since 0001-01-01 of the
proleptic Gregorian calendar, so that day 0 is a Monday and subtracting one
models Go's AddDate(0, 0, -1).  The remote holiday service behind
checkHoliday's HTTP call is modelled as an oracle function from a date to
either an error message (network failure, bad status code or malformed JSON,
abstracted to the formatted message checkHoliday would return) or a
HolidayResponse.  Every function that can perform oracle queries returns, as
an explicit effect trace, the list of dates it queried, in query order.
-/

/-- HolidayResponse in main.go: the JSON body of the holiday API. -/
structure HolidayResponse where
  holiday : Bool
  name : String
  deriving DecidableEq

/-- The days of the week, as Go's time.Weekday values. -/
inductive Weekday where
  | sunday
  | monday
  | tuesday
  | wednesday
  | thursday
  | friday
  | saturday
  deriving DecidableEq

/-- Weekday of a day number: day 0 (0001-01-01, proleptic Gregorian) is a
Monday, and the week cycles with period 7. -/
def weekday (d : Int) : Weekday :=
  if d % 7 = 0 then .monday
  else if d % 7 = 1 then .tuesday
  else if d % 7 = 2 then .wednesday
  else if d % 7 = 3 then .thursday
  else if d % 7 = 4 then .friday
  else if d % 7 = 5 then .saturday
  else .sunday

/-- isWeekend in main.go: Saturday or Sunday. -/
def isWeekend (date : Int) : Bool :=
  weekday date == .saturday || weekday date == .sunday

/-- The behaviour of the remote holiday service, one answer per date: either
a response or the message of the failure (API呼び出しエラー, APIエラー or
JSONパースエラー) that checkHoliday would report for that request. -/
abbrev Oracle := Int → Except String HolidayResponse

/-- checkHoliday in main.go: query the service for one date and return the
holiday flag and name, or the error.  The second component records that this
date was queried. -/
def checkHoliday (oracle : Oracle) (date : Int) :
    Except String (Bool × String) × List Int :=
  match oracle date with
  | .error e => (.error e, [date])
  | .ok r => (.ok (r.holiday, r.name), [date])

/-- isBusinessDay in main.go: a weekend is not a business day and is decided
without any oracle query; any other day is queried and is a business day iff
the oracle reports it is not a holiday.  An oracle error propagates. -/
def isBusinessDay (oracle : Oracle) (date : Int) :
    Except String Bool × List Int :=
  if isWeekend date then (.ok false, [])
  else
    match checkHoliday oracle date with
    | (.error e, log) => (.error e, log)
    | (.ok (isHoliday, _), log) => (.ok (!isHoliday), log)

/-- The zero value of Go's time.Time, as a day number: 0001-01-01. -/
def zeroTime : Int := 0

/-- The two failures findPreviousBusinessDay can return: a wrapped
business-day-check error (営業日判定エラー) or exhaustion of the 30-day
search (営業日が見つかりませんでした). -/
inductive BizError where
  | oracleError (msg : String)
  | notFound
  deriving DecidableEq

/-- The for-loop of findPreviousBusinessDay in main.go: examine up to `fuel`
more candidate days starting at `current`, walking backward one calendar day
at a time.  Mirrors Go's two-value return: on failure the date component is
the zero time.  The second component is the trace of oracle queries. -/
def findLoop (oracle : Oracle) : Int → Nat → (Int × Option BizError) × List Int
  | _, 0 => ((zeroTime, some .notFound), [])
  | current, fuel + 1 =>
    match isBusinessDay oracle current with
    | (.error e, log) => ((zeroTime, some (.oracleError e)), log)
    | (.ok true, log) => ((current, none), log)
    | (.ok false, log) =>
      let rest := findLoop oracle (current - 1) fuel
      (rest.1, log ++ rest.2)

/-- findPreviousBusinessDay in main.go: start from one day before the base
date and search up to 30 days back. -/
def findPreviousBusinessDay (oracle : Oracle) (fromDate : Int) :
    (Int × Option BizError) × List Int :=
  findLoop oracle (fromDate - 1) 30

/-- Leap years of the proleptic Gregorian calendar, as Go's time package. -/
def isLeapYear (y : Nat) : Bool :=
  (y % 4 == 0 && y % 100 != 0) || y % 400 == 0

/-- Number of days of month `m` of year `y`, as Go's time package. -/
def daysInMonth (y m : Nat) : Nat :=
  if m == 2 then (if isLeapYear y then 29 else 28)
  else if m == 4 || m == 6 || m == 9 || m == 11 then 30
  else 31

/-- Days of year `y` that lie in months strictly before month `m`. -/
def daysBeforeMonth (y : Nat) : Nat → Nat
  | 0 => 0
  | 1 => 0
  | m + 2 => daysBeforeMonth y (m + 1) + daysInMonth y (m + 1)

/-- Day number of a calendar date: days since 0001-01-01 (proleptic
Gregorian), for years from 1 on. -/
def dayNumber (y m d : Nat) : Int :=
  365 * ((y : Int) - 1) + ((y : Int) - 1) / 4 - ((y : Int) - 1) / 100
    + ((y : Int) - 1) / 400 + (daysBeforeMonth y m : Int) + ((d : Int) - 1)

/-- The numeric value of a decimal digit character. -/
def digitVal (c : Char) : Option Nat :=
  if c.isDigit then some (c.toNat - 48) else none

/-- Modelled after Go's time.Parse with layout 2006-01-02, as main.go calls
it: exactly four digits, a dash, two digits, a dash and two digits, with the
month in 1..12 and the day valid for that month and year.  Returns the day
number of the parsed date. -/
def parseISODate (s : String) : Option Int :=
  match s.toList with
  | [y1, y2, y3, y4, sep1, m1, m2, sep2, d1, d2] =>
    match digitVal y1, digitVal y2, digitVal y3, digitVal y4,
        digitVal m1, digitVal m2, digitVal d1, digitVal d2 with
    | some a, some b, some c, some e, some p, some q, some u, some v =>
      if sep1 = '-' ∧ sep2 = '-' then
        let y := ((a * 10 + b) * 10 + c) * 10 + e
        let mo := p * 10 + q
        let dy := u * 10 + v
        if 1 ≤ mo ∧ mo ≤ 12 ∧ 1 ≤ dy ∧ dy ≤ daysInMonth y mo then
          some (dayNumber y mo dy)
        else none
      else none
    | _, _, _, _, _, _, _, _ => none
  | _ => none

/-- What a run of main in main.go ends in, after flag parsing. -/
inductive MainOutcome where
  | helpShown
  | invalidDate
  | scanFailed (e : BizError)
  | printed (result : Int)
  deriving DecidableEq

/-- main in main.go, after flag parsing: `help` is the -help flag, `today`
the current JST date used when -date is absent, `dateStr` the -date
argument.  The second component is the trace of oracle queries. -/
def runMain (oracle : Oracle) (help : Bool) (today : Int) (dateStr : String) :
    MainOutcome × List Int :=
  if help then (.helpShown, [])
  else
    let base : Option Int :=
      if dateStr = "" then some today else parseISODate dateStr
    match base with
    | none => (.invalidDate, [])
    | some b =>
      match findPreviousBusinessDay oracle b with
      | ((d, none), log) => (.printed d, log)
      | ((_, some e), log) => (.scanFailed e, log)

/-- The first `k` candidate days of a backward scan that starts at `c`:
c, c - 1, ..., c - (k - 1), in scan order. -/
def candFrom (c : Int) : Nat → List Int
  | 0 => []
  | k + 1 => c :: candFrom (c - 1) k

/-- Two service behaviours agree on everything isBusinessDay consumes: the
holiday flag on success, the message on failure.  The name may differ. -/
def respAgree (x y : Except String HolidayResponse) : Prop :=
  match x, y with
  | .ok r1, .ok r2 => r1.holiday = r2.holiday
  | .error e1, .error e2 => e1 = e2
  | _, _ => False

/-- A service that reports every day as a regular day. -/
def oracleFree : Oracle := fun _ => .ok ⟨false, ""⟩

/-- A service that reports every day as a holiday. -/
def oracleAllHoliday : Oracle := fun _ => .ok ⟨true, ("祝日")⟩

/-- A service that fails on every request. -/
def oracleFail : Oracle := fun _ => .error ("connection refused")

/-- A service that fails exactly on day -3 (a Friday). -/
def oracleErrAt3 : Oracle :=
  fun d => if d = -3 then .error ("boom") else .ok ⟨false, ""⟩

/-- A service that reports exactly day 3 (a Thursday) as a holiday. -/
def oracleHol3 : Oracle :=
  fun d => if d = 3 then .ok ⟨true, ("祝日")⟩ else .ok ⟨false, ""⟩

/-- A free-day service whose holiday names read A. -/
def oracleNameA : Oracle := fun _ => .ok ⟨false, ("name A")⟩

/-- A free-day service whose holiday names read B. -/
def oracleNameB : Oracle := fun _ => .ok ⟨false, ("name B")⟩

lemma mem_candFrom : ∀ (k : Nat) (c d : Int),
    d ∈ candFrom c k ↔ ∃ j : Nat, j < k ∧ d = c - (j : Int) := by
  intro k
  induction k with
  | zero => intro c d; simp [candFrom]
  | succ k ih =>
    intro c d
    simp only [candFrom, List.mem_cons, ih]
    constructor
    · rintro (rfl | ⟨j, hj, rfl⟩)
      · exact ⟨0, by omega, by simp⟩
      · exact ⟨j + 1, by omega, by push_cast; ring⟩
    · rintro ⟨j, hj, rfl⟩
      cases j with
      | zero => left; simp
      | succ j => right; exact ⟨j, by omega, by push_cast; ring⟩

lemma isBusinessDay_snd (oracle : Oracle) (d : Int) :
    (isBusinessDay oracle d).2 = if isWeekend d then [] else [d] := by
  rcases hw : isWeekend d
  · rcases h : oracle d with e | r <;> simp [isBusinessDay, checkHoliday, hw, h]
  · simp [isBusinessDay, hw]

lemma isBusinessDay_ok_true_iff (oracle : Oracle) (d : Int) :
    (isBusinessDay oracle d).1 = .ok true ↔
      isWeekend d = false ∧ ∃ r, oracle d = .ok r ∧ r.holiday = false := by
  rcases hw : isWeekend d
  · rcases h : oracle d with e | r <;> simp [isBusinessDay, checkHoliday, hw, h]
  · simp [isBusinessDay, hw]

lemma isBusinessDay_error_iff (oracle : Oracle) (d : Int) (e : String) :
    (isBusinessDay oracle d).1 = .error e ↔
      isWeekend d = false ∧ oracle d = .error e := by
  rcases hw : isWeekend d
  · rcases h : oracle d with e1 | r <;> simp [isBusinessDay, checkHoliday, hw, h]
  · simp [isBusinessDay, hw]

lemma isBusinessDay_of_weekend (oracle : Oracle) (d : Int)
    (hw : isWeekend d = true) : (isBusinessDay oracle d).1 = .ok false := by
  simp [isBusinessDay, hw]

lemma isBusinessDay_of_holiday (oracle : Oracle) (d : Int) (r : HolidayResponse)
    (hw : isWeekend d = false) (hr : oracle d = .ok r) (hh : r.holiday = true) :
    (isBusinessDay oracle d).1 = .ok false := by
  simp [isBusinessDay, checkHoliday, hw, hr, hh]

lemma isWeekend_true_iff (d : Int) :
    isWeekend d = true ↔ d % 7 = 5 ∨ d % 7 = 6 := by
  unfold isWeekend weekday
  split_ifs <;> simp <;> omega

lemma isWeekend_false_iff (d : Int) :
    isWeekend d = false ↔ ¬(d % 7 = 5 ∨ d % 7 = 6) := by
  rw [← isWeekend_true_iff, Bool.not_eq_true]

lemma weekday_monday_emod (d : Int) (h : weekday d = .monday) : d % 7 = 0 := by
  unfold weekday at h
  split_ifs at h
  assumption

lemma weekday_friday_of_emod (d : Int) (h : d % 7 = 4) : weekday d = .friday := by
  unfold weekday
  split_ifs <;> first | rfl | omega

lemma findLoop_char (oracle : Oracle) :
    ∀ (fuel : Nat) (c : Int), 1 ≤ fuel →
    ∃ m : Nat, m < fuel ∧
      (∀ j : Nat, j < m → (isBusinessDay oracle (c - (j : Int))).1 = .ok false) ∧
      (findLoop oracle c fuel).2
        = (candFrom c (m + 1)).filter (fun d => !isWeekend d) ∧
      (((isBusinessDay oracle (c - (m : Int))).1 = .ok true
          ∧ (findLoop oracle c fuel).1 = (c - (m : Int), none))
        ∨ (∃ e, (isBusinessDay oracle (c - (m : Int))).1 = .error e
            ∧ (findLoop oracle c fuel).1 = (zeroTime, some (.oracleError e)))
        ∨ ((isBusinessDay oracle (c - (m : Int))).1 = .ok false ∧ m + 1 = fuel
            ∧ (findLoop oracle c fuel).1 = (zeroTime, some .notFound))) := by
  intro fuel
  induction fuel with
  | zero => intro c h; omega
  | succ n ih =>
    intro c _
    rcases hb : isBusinessDay oracle c with ⟨res, log⟩
    have hlog : log = if isWeekend c then [] else [c] := by
      have h2 := isBusinessDay_snd oracle c
      rw [hb] at h2
      exact h2
    rcases res with e | b
    · -- oracle error on the first candidate
      have hfst : (isBusinessDay oracle c).1 = .error e := by rw [hb]
      have hw : isWeekend c = false := ((isBusinessDay_error_iff oracle c e).1 hfst).1
      refine ⟨0, by omega, fun j hj => absurd hj (by omega), ?_, ?_⟩
      · simp [findLoop, hb, hlog, hw, candFrom, List.filter]
      · refine Or.inr (Or.inl ⟨e, ?_, ?_⟩)
        · simpa using hfst
        · simp [findLoop, hb]
    · rcases b with _ | _
      · -- not a business day: recurse or exhaust
        have hfst : (isBusinessDay oracle c).1 = .ok false := by rw [hb]
        rcases Nat.eq_zero_or_pos n with hn | hn
        · subst hn
          refine ⟨0, by omega, fun j hj => absurd hj (by omega), ?_, ?_⟩
          · rcases hw : isWeekend c <;>
              simp [findLoop, hb, hlog, hw, candFrom, List.filter]
          · refine Or.inr (Or.inr ⟨by simpa using hfst, rfl, ?_⟩)
            simp [findLoop, hb]
        · obtain ⟨m, hm, hrej, hlog2, htri⟩ := ih (c - 1) hn
          have hres : (findLoop oracle c (n + 1)).1 = (findLoop oracle (c - 1) n).1 := by
            simp [findLoop, hb]
          have harith : ∀ j : Nat, c - ((j + 1 : Nat) : Int) = c - 1 - (j : Int) := by
            intro j; push_cast; ring
          refine ⟨m + 1, by omega, ?_, ?_, ?_⟩
          · intro j hj
            cases j with
            | zero => simpa using hfst
            | succ j => rw [harith j]; exact hrej j (by omega)
          · have hsnd : (findLoop oracle c (n + 1)).2
                = log ++ (findLoop oracle (c - 1) n).2 := by
              simp [findLoop, hb]
            rw [hsnd, hlog2, hlog]
            rcases hw : isWeekend c <;>
              simp [candFrom, List.filter_cons, hw]
          · rw [hres, harith m]
            rcases htri with ⟨h1, h2⟩ | ⟨e, h1, h2⟩ | ⟨h1, h2, h3⟩
            · exact Or.inl ⟨h1, h2⟩
            · exact Or.inr (Or.inl ⟨e, h1, h2⟩)
            · exact Or.inr (Or.inr ⟨h1, by omega, h3⟩)
      · -- business day found at the first candidate
        have hfst : (isBusinessDay oracle c).1 = .ok true := by rw [hb]
        have hw : isWeekend c = false := ((isBusinessDay_ok_true_iff oracle c).1 hfst).1
        refine ⟨0, by omega, fun j hj => absurd hj (by omega), ?_, ?_⟩
        · simp [findLoop, hb, hlog, hw, candFrom, List.filter]
        · refine Or.inl ⟨by simpa using hfst, ?_⟩
          simp [findLoop, hb]

/-- C1: whenever findPreviousBusinessDay returns a date without an error,
that date is strictly before the base date, it is a business day (not a
weekend and reported as a non-holiday by the oracle), and every calendar day
strictly between it and the base date is not a business day. -/
theorem findPreviousBusinessDay_correct (oracle : Oracle) (f d : Int)
    (h : (findPreviousBusinessDay oracle f).1 = (d, none)) :
    d < f ∧ isWeekend d = false ∧
      (∃ r, oracle d = .ok r ∧ r.holiday = false) ∧
      ∀ e : Int, d < e → e < f → (isBusinessDay oracle e).1 = .ok false := by
  obtain ⟨m, hm, hrej, hlog, htri⟩ := findLoop_char oracle 30 (f - 1) (by norm_num)
  unfold findPreviousBusinessDay at h
  rcases htri with ⟨hbiz, hres⟩ | ⟨e, hbiz, hres⟩ | ⟨hbiz, hm1, hres⟩
  · rw [hres] at h
    simp only [Prod.mk.injEq] at h
    have hd : d = f - 1 - (m : Int) := h.1.symm
    rw [← hd] at hbiz
    obtain ⟨hw, r, hr, hh⟩ := (isBusinessDay_ok_true_iff oracle d).1 hbiz
    refine ⟨by omega, hw, ⟨r, hr, hh⟩, ?_⟩
    intro e he1 he2
    have hj : ∃ j : Nat, (j : Int) = f - 1 - e ∧ j < m := by
      exact ⟨(f - 1 - e).toNat, by omega, by omega⟩
    obtain ⟨j, hje, hjm⟩ := hj
    have heq : f - 1 - (j : Int) = e := by omega
    rw [← heq]
    exact hrej j hjm
  · rw [hres] at h
    simp at h
  · rw [hres] at h
    simp at h

theorem findPreviousBusinessDay_correct_witness :
    (-3 : Int) < 0 ∧ isWeekend (-3) = false ∧
      (∃ r, oracleFree (-3) = .ok r ∧ r.holiday = false) ∧
      ∀ e : Int, -3 < e → e < 0 → (isBusinessDay oracleFree e).1 = .ok false :=
  findPreviousBusinessDay_correct oracleFree 0 (-3) (by decide)

/-- C2: the scan contract.  For every starting date there is a count m + 1
of examined candidates: they are the days immediately preceding the starting
date, in strictly decreasing order one day at a time (candFrom (f - 1)),
exactly the non-weekend candidates are queried against the oracle (the trace
is the weekend-free sublist, so a weekend candidate is rejected without a
query), every candidate before the last is not a business day, and the scan
ends at the last candidate: returned if it is a business day, an immediate
error if its oracle call fails, exhaustion otherwise. -/
theorem findPreviousBusinessDay_scan_contract (oracle : Oracle) (f : Int) :
    ∃ m : Nat, m < 30 ∧
      (∀ j : Nat, j < m →
        (isBusinessDay oracle (f - 1 - (j : Int))).1 = .ok false) ∧
      (findPreviousBusinessDay oracle f).2
        = (candFrom (f - 1) (m + 1)).filter (fun d => !isWeekend d) ∧
      (∀ d ∈ (findPreviousBusinessDay oracle f).2, isWeekend d = false) ∧
      (((isBusinessDay oracle (f - 1 - (m : Int))).1 = .ok true
          ∧ (findPreviousBusinessDay oracle f).1 = (f - 1 - (m : Int), none))
        ∨ (∃ e, (isBusinessDay oracle (f - 1 - (m : Int))).1 = .error e
            ∧ (findPreviousBusinessDay oracle f).1
                = (zeroTime, some (.oracleError e)))
        ∨ ((isBusinessDay oracle (f - 1 - (m : Int))).1 = .ok false ∧ m + 1 = 30
            ∧ (findPreviousBusinessDay oracle f).1
                = (zeroTime, some .notFound))) := by
  obtain ⟨m, hm, hrej, hlog, htri⟩ := findLoop_char oracle 30 (f - 1) (by norm_num)
  refine ⟨m, hm, hrej, hlog, ?_, htri⟩
  intro d hd
  unfold findPreviousBusinessDay at hd
  rw [hlog] at hd
  have := List.mem_filter.1 hd
  simpa using this.2

/-- C8: whenever findPreviousBusinessDay returns an error, the date value
returned alongside it is the zero time. -/
theorem findPreviousBusinessDay_error_zero (oracle : Oracle) (f : Int)
    (e : BizError) (h : (findPreviousBusinessDay oracle f).1.2 = some e) :
    (findPreviousBusinessDay oracle f).1.1 = zeroTime := by
  obtain ⟨m, hm, hrej, hlog, htri⟩ := findLoop_char oracle 30 (f - 1) (by norm_num)
  unfold findPreviousBusinessDay at h ⊢
  rcases htri with ⟨_, hres⟩ | ⟨e1, _, hres⟩ | ⟨_, _, hres⟩
  · rw [hres] at h
    simp at h
  · rw [hres]
  · rw [hres]

theorem findPreviousBusinessDay_error_zero_witness :
    (findPreviousBusinessDay oracleFail 0).1.1 = zeroTime :=
  findPreviousBusinessDay_error_zero oracleFail 0
    (.oracleError ("connection refused")) (by decide)

/-- C10: a successfully returned date lies between 1 and 30 calendar days
before the base date, inclusive. -/
theorem findPreviousBusinessDay_within_30 (oracle : Oracle) (f d : Int)
    (h : (findPreviousBusinessDay oracle f).1 = (d, none)) :
    ∃ k : Nat, 1 ≤ k ∧ k ≤ 30 ∧ d = f - (k : Int) := by
  obtain ⟨m, hm, hrej, hlog, htri⟩ := findLoop_char oracle 30 (f - 1) (by norm_num)
  unfold findPreviousBusinessDay at h
  rcases htri with ⟨_, hres⟩ | ⟨e, _, hres⟩ | ⟨_, _, hres⟩ <;> rw [hres] at h
  · simp only [Prod.mk.injEq] at h
    refine ⟨m + 1, by omega, by omega, ?_⟩
    have hd := h.1
    push_cast
    omega
  · simp at h
  · simp at h

theorem findPreviousBusinessDay_within_30_witness :
    ∃ k : Nat, 1 ≤ k ∧ k ≤ 30 ∧ (4 : Int) = 7 - (k : Int) :=
  findPreviousBusinessDay_within_30 oracleFree 7 4 (by decide)

/-- C3: the scan queries only days between 1 and 30 days before the base
date (so it never examines the 31st preceding day), and, when no oracle call
fails, it returns the not-found error if and only if none of the 30
preceding days is a business day. -/
theorem findPreviousBusinessDay_bound (oracle : Oracle) (f : Int)
    (hok : ∀ d : Int, ∃ r, oracle d = .ok r) :
    (∀ d ∈ (findPreviousBusinessDay oracle f).2, f - 30 ≤ d ∧ d ≤ f - 1) ∧
      ((findPreviousBusinessDay oracle f).1.2 = some .notFound ↔
        ∀ j : Nat, 1 ≤ j → j ≤ 30 →
          (isBusinessDay oracle (f - (j : Int))).1 = .ok false) := by
  obtain ⟨m, hm, hrej, hlog, htri⟩ := findLoop_char oracle 30 (f - 1) (by norm_num)
  constructor
  · intro d hd
    unfold findPreviousBusinessDay at hd
    rw [hlog] at hd
    have hmem := (List.mem_filter.1 hd).1
    obtain ⟨j, hj, rfl⟩ := (mem_candFrom (m + 1) (f - 1) d).1 hmem
    omega
  · constructor
    · intro hnf
      unfold findPreviousBusinessDay at hnf
      rcases htri with ⟨_, hres⟩ | ⟨e, _, hres⟩ | ⟨hbiz, hm1, hres⟩
      · rw [hres] at hnf
        simp at hnf
      · rw [hres] at hnf
        simp at hnf
      · intro j hj1 hj30
        have harith : f - (j : Int) = f - 1 - ((j - 1 : Nat) : Int) := by omega
        rw [harith]
        rcases Nat.lt_or_ge (j - 1) m with hlt | hge
        · exact hrej (j - 1) hlt
        · have hjm : j - 1 = m := by omega
          rw [hjm]
          exact hbiz
    · intro hall
      rcases htri with ⟨hbiz, hres⟩ | ⟨e, hbiz, hres⟩ | ⟨_, _, hres⟩
      · exfalso
        have := hall (m + 1) (by omega) (by omega)
        have harith : f - ((m + 1 : Nat) : Int) = f - 1 - (m : Int) := by
          push_cast; ring
        rw [harith, hbiz] at this
        simp at this
      · exfalso
        obtain ⟨r, hr⟩ := hok (f - 1 - (m : Int))
        have := (isBusinessDay_error_iff oracle (f - 1 - (m : Int)) e).1 hbiz
        rw [hr] at this
        simp at this
      · unfold findPreviousBusinessDay
        rw [hres]

theorem findPreviousBusinessDay_bound_witness :
    (∀ d ∈ (findPreviousBusinessDay oracleAllHoliday 0).2,
        (0 : Int) - 30 ≤ d ∧ d ≤ 0 - 1) ∧
      ((findPreviousBusinessDay oracleAllHoliday 0).1.2 = some .notFound ↔
        ∀ j : Nat, 1 ≤ j → j ≤ 30 →
          (isBusinessDay oracleAllHoliday (0 - (j : Int))).1 = .ok false) :=
  findPreviousBusinessDay_bound oracleAllHoliday 0
    (fun _ => ⟨⟨true, ("祝日")⟩, rfl⟩)

/-- C4: if the oracle call fails on the k-th preceding day, the first
probed candidate that is not skipped as a weekend or holiday,
findPreviousBusinessDay returns the wrapped error, and no day before that
day is ever probed: every queried day is at most k days back. -/
theorem findPreviousBusinessDay_stops_at_error (oracle : Oracle) (f : Int)
    (k : Nat) (e : String) (hk1 : 1 ≤ k) (hk30 : k ≤ 30)
    (herr : (isBusinessDay oracle (f - (k : Int))).1 = .error e)
    (hprev : ∀ j : Nat, 1 ≤ j → j < k →
      (isBusinessDay oracle (f - (j : Int))).1 = .ok false) :
    (findPreviousBusinessDay oracle f).1 = (zeroTime, some (.oracleError e)) ∧
      ∀ d ∈ (findPreviousBusinessDay oracle f).2, f - (k : Int) ≤ d := by
  obtain ⟨m, hm, hrej, hlog, htri⟩ := findLoop_char oracle 30 (f - 1) (by norm_num)
  have harith : ∀ j : Nat, f - ((j + 1 : Nat) : Int) = f - 1 - (j : Int) := by
    intro j; push_cast; ring
  have hmk : m = k - 1 := by
    by_contra hne
    rcases Nat.lt_or_ge m (k - 1) with hlt | hge
    · have hofalse : (isBusinessDay oracle (f - 1 - (m : Int))).1 = .ok false := by
        have := hprev (m + 1) (by omega) (by omega)
        rwa [harith m] at this
      rcases htri with ⟨h1, _⟩ | ⟨e1, h1, _⟩ | ⟨_, h2, _⟩
      · rw [hofalse] at h1
        simp at h1
      · rw [hofalse] at h1
        simp at h1
      · omega
    · have hkm : k - 1 < m := by omega
      have := hrej (k - 1) hkm
      have ha2 : f - 1 - ((k - 1 : Nat) : Int) = f - (k : Int) := by omega
      rw [ha2, herr] at this
      simp at this
  subst hmk
  have ha2 : f - 1 - ((k - 1 : Nat) : Int) = f - (k : Int) := by omega
  rw [ha2] at htri
  rcases htri with ⟨h1, _⟩ | ⟨e1, h1, hres⟩ | ⟨h1, _, _⟩
  · rw [herr] at h1
    simp at h1
  · have he : e1 = e := by
      rw [herr] at h1
      simp only [Except.error.injEq] at h1
      exact h1.symm
    subst he
    refine ⟨by unfold findPreviousBusinessDay; rw [hres], ?_⟩
    intro d hd
    unfold findPreviousBusinessDay at hd
    rw [hlog] at hd
    have hmem := (List.mem_filter.1 hd).1
    obtain ⟨j, hj, rfl⟩ := (mem_candFrom (k - 1 + 1) (f - 1) _).1 hmem
    omega
  · rw [herr] at h1
    simp at h1

theorem findPreviousBusinessDay_stops_at_error_witness :
    (findPreviousBusinessDay oracleErrAt3 0).1
        = (zeroTime, some (.oracleError ("boom"))) ∧
      ∀ d ∈ (findPreviousBusinessDay oracleErrAt3 0).2, (0 : Int) - 3 ≤ d :=
  findPreviousBusinessDay_stops_at_error oracleErrAt3 0 3 ("boom")
    (by norm_num) (by norm_num) (by rfl)
    (by intro j h1 h2; interval_cases j <;> rfl)

/-- C5: with an oracle that reports no holidays, scanning back from any
Monday returns the Friday three days earlier, skipping the intervening
Sunday and Saturday. -/
theorem findPreviousBusinessDay_monday (oracle : Oracle) (f : Int)
    (hfree : ∀ d : Int, ∃ r, oracle d = .ok r ∧ r.holiday = false)
    (hmon : weekday f = .monday) :
    (findPreviousBusinessDay oracle f).1 = (f - 3, none) ∧
      weekday (f - 3) = .friday := by
  have h0 : f % 7 = 0 := weekday_monday_emod f hmon
  have hw1 : isWeekend (f - 1) = true := (isWeekend_true_iff _).2 (by omega)
  have hw2 : isWeekend (f - 2) = true := (isWeekend_true_iff _).2 (by omega)
  have hw3 : isWeekend (f - 3) = false := (isWeekend_false_iff _).2 (by omega)
  have hb1 : (isBusinessDay oracle (f - 1)).1 = .ok false :=
    isBusinessDay_of_weekend oracle (f - 1) hw1
  have hb2 : (isBusinessDay oracle (f - 2)).1 = .ok false :=
    isBusinessDay_of_weekend oracle (f - 2) hw2
  have hb3 : (isBusinessDay oracle (f - 3)).1 = .ok true := by
    obtain ⟨r, hr, hh⟩ := hfree (f - 3)
    exact (isBusinessDay_ok_true_iff oracle (f - 3)).2 ⟨hw3, r, hr, hh⟩
  obtain ⟨m, hm, hrej, hlog, htri⟩ := findLoop_char oracle 30 (f - 1) (by norm_num)
  have hm2 : m = 2 := by
    by_contra hne
    rcases Nat.lt_or_ge m 2 with h2 | h2
    · have hofalse : (isBusinessDay oracle (f - 1 - (m : Int))).1 = .ok false := by
        interval_cases m
        · have ha : f - 1 - ((0 : Nat) : Int) = f - 1 := by push_cast; ring
          rw [ha]; exact hb1
        · have ha : f - 1 - ((1 : Nat) : Int) = f - 2 := by push_cast; ring
          rw [ha]; exact hb2
      rcases htri with ⟨h1, _⟩ | ⟨e, h1, _⟩ | ⟨_, h1, _⟩
      · rw [hofalse] at h1
        simp at h1
      · rw [hofalse] at h1
        simp at h1
      · omega
    · have h3 : (2 : Nat) < m := by omega
      have := hrej 2 h3
      have ha : f - 1 - ((2 : Nat) : Int) = f - 3 := by push_cast; ring
      rw [ha, hb3] at this
      simp at this
  subst hm2
  have ha : f - 1 - ((2 : Nat) : Int) = f - 3 := by push_cast; ring
  rw [ha] at htri
  refine ⟨?_, weekday_friday_of_emod (f - 3) (by omega)⟩
  rcases htri with ⟨_, hres⟩ | ⟨e, h1, _⟩ | ⟨h1, _, _⟩
  · unfold findPreviousBusinessDay
    rw [hres]
  · rw [hb3] at h1
    simp at h1
  · rw [hb3] at h1
    simp at h1

theorem findPreviousBusinessDay_monday_witness :
    (findPreviousBusinessDay oracleFree 7).1 = (7 - 3, none) ∧
      weekday (7 - 3) = .friday :=
  findPreviousBusinessDay_monday oracleFree 7
    (fun _ => ⟨⟨false, ""⟩, rfl, rfl⟩) (by rfl)

/-- C6: a non-weekend day within the 30-day range that the oracle reports
as a holiday is never the returned result: a successful scan skips it. -/
theorem findPreviousBusinessDay_skips_holiday (oracle : Oracle) (f : Int)
    (k : Nat) (r : HolidayResponse) (hk1 : 1 ≤ k) (hk30 : k ≤ 30)
    (hw : isWeekend (f - (k : Int)) = false)
    (hr : oracle (f - (k : Int)) = .ok r) (hh : r.holiday = true)
    (hsucc : (findPreviousBusinessDay oracle f).1.2 = none) :
    (findPreviousBusinessDay oracle f).1.1 ≠ f - (k : Int) := by
  have hfk : (isBusinessDay oracle (f - (k : Int))).1 = .ok false :=
    isBusinessDay_of_holiday oracle (f - (k : Int)) r hw hr hh
  obtain ⟨m, hm, hrej, hlog, htri⟩ := findLoop_char oracle 30 (f - 1) (by norm_num)
  unfold findPreviousBusinessDay at hsucc ⊢
  rcases htri with ⟨hbiz, hres⟩ | ⟨e, _, hres⟩ | ⟨_, _, hres⟩
  · rw [hres]
    intro heq
    simp only at heq
    rw [heq, hfk] at hbiz
    simp at hbiz
  · rw [hres] at hsucc
    simp at hsucc
  · rw [hres] at hsucc
    simp at hsucc

theorem findPreviousBusinessDay_skips_holiday_witness :
    (findPreviousBusinessDay oracleHol3 4).1.1 ≠ 4 - ((1 : Nat) : Int) :=
  findPreviousBusinessDay_skips_holiday oracleHol3 4 1 ⟨true, ("祝日")⟩
    (by norm_num) (by norm_num) (by rfl) (by rfl) (by rfl) (by rfl)

lemma isBusinessDay_fst_congr (o1 o2 : Oracle) (d : Int)
    (h : respAgree (o1 d) (o2 d)) :
    (isBusinessDay o1 d).1 = (isBusinessDay o2 d).1 := by
  rcases h1 : o1 d with e1 | r1 <;> rcases h2 : o2 d with e2 | r2 <;>
      rw [h1, h2] at h <;> simp only [respAgree] at h
  · simp [isBusinessDay, checkHoliday, h1, h2, h]
  · simp [isBusinessDay, checkHoliday, h1, h2, h]

lemma findLoop_congr (o1 o2 : Oracle)
    (h : ∀ d : Int, respAgree (o1 d) (o2 d)) :
    ∀ (fuel : Nat) (c : Int), findLoop o1 c fuel = findLoop o2 c fuel := by
  intro fuel
  induction fuel with
  | zero => intro c; rfl
  | succ n ih =>
    intro c
    have hfst : (isBusinessDay o1 c).1 = (isBusinessDay o2 c).1 :=
      isBusinessDay_fst_congr o1 o2 c (h c)
    have hsnd : (isBusinessDay o1 c).2 = (isBusinessDay o2 c).2 := by
      rw [isBusinessDay_snd, isBusinessDay_snd]
    have hib : isBusinessDay o1 c = isBusinessDay o2 c := by
      rcases hx : isBusinessDay o1 c with ⟨x1, x2⟩
      rcases hy : isBusinessDay o2 c with ⟨y1, y2⟩
      rw [hx, hy] at hfst hsnd
      simp only at hfst hsnd
      rw [hfst, hsnd]
    show findLoop o1 c (n + 1) = findLoop o2 c (n + 1)
    simp only [findLoop, hib, ih]

/-- C9: the result of findPreviousBusinessDay depends only on the holiday
flag (and failure message) of each oracle response, never on the holiday
name: two oracles related by respAgree yield identical results. -/
theorem findPreviousBusinessDay_name_independent (o1 o2 : Oracle) (f : Int)
    (h : ∀ d : Int, respAgree (o1 d) (o2 d)) :
    (findPreviousBusinessDay o1 f).1 = (findPreviousBusinessDay o2 f).1 := by
  unfold findPreviousBusinessDay
  rw [findLoop_congr o1 o2 h]

theorem findPreviousBusinessDay_name_independent_witness :
    (findPreviousBusinessDay oracleNameA 0).1
      = (findPreviousBusinessDay oracleNameB 0).1 :=
  findPreviousBusinessDay_name_independent oracleNameA oracleNameB 0
    (fun _ => rfl)

/-- C7 (amended): for every non-empty -date argument that does not parse
as an ISO YYYY-MM-DD date, main reports the invalid-date error without
performing any oracle query or business-day scan.  The empty string is
excepted: main treats an empty -date as absent and scans from today. -/
theorem runMain_invalid_date (oracle : Oracle) (today : Int) (s : String)
    (hne : s ≠ "") (hp : parseISODate s = none) :
    runMain oracle false today s = (.invalidDate, []) := by
  simp [runMain, hne, hp]

theorem runMain_invalid_date_witness :
    runMain oracleFree false 0 ("2025-13-01") = (.invalidDate, []) :=
  runMain_invalid_date oracleFree 0 ("2025-13-01") (by decide) (by rfl)

/-- C7 counterexample: the empty string does not parse as an ISO date, yet
main does not report the invalid-date error for it: it scans from today
(here day 0) and prints a result, querying the oracle. -/
theorem runMain_empty_date_counterexample :
    parseISODate ("") = none ∧
      runMain oracleFree false 0 ("") ≠ (.invalidDate, []) ∧
      runMain oracleFree false 0 ("") = (.printed (-3), [-3]) := by
  refine ⟨rfl, ?_, by decide⟩
  decide
